import Mathlib

/-!
# Verification of the fuzzilli native harness layer

Shallow embedding of the C sources of the fuzzilli native harness:

* `Sources/libcoverage/coverage.c` and its header `libcoverage.h`
  (shared-memory edge-coverage engine: virgin/crash bitmaps, per-edge
  hit counts, `found_edges` bookkeeping);
* `Sources/libreprl/libreprl.c` and its header `libreprl.h`
  (REPRL execution contexts: script delivery, control-pipe round trip,
  timeout handling, data-channel content fetching).

Bitmaps are modelled bit-addressed, as functions `Nat → Bool`: the C
helpers `edge`, `set_edge`, `clear_edge` access bit `index` of a byte
buffer via `bits[index / 8]` and `1 << (index % 8)`, which is exactly
bit `index` of the buffer viewed as a bit sequence.  Machine integers
(`uint32_t` counters) are modelled as `Nat` with an explicit
`% 4294967296` where the C arithmetic can wrap.  Operating-system
effects of the REPRL layer (fork, pipe writes, poll, waitpid) are
modelled by an environment record describing the outcome of each
system interaction and by an explicit list of emitted actions, so that
frame properties ("no child was spawned or killed") are statements
about the action trace.
-/

namespace Fuzzilli

/-! ## libcoverage: constants (libcoverage.h) -/

/-- `#define SHM_SIZE 0x202000` -/
def SHM_SIZE : Nat := 0x202000

/-- `#define MAX_EDGES ((SHM_SIZE - 4) * 8)` -/
def MAX_EDGES : Nat := (SHM_SIZE - 4) * 8

/-- `#define MAX_FEEDBACK_NEXUS 100000` -/
def MAX_FEEDBACK_NEXUS : Nat := 100000

/-- `offsetof(struct shmem_data, edges)`.  The struct lays out four
`uint32_t` fields (`num_edges`, `feedback_nexus_count`,
`max_feedback_nexus`, `turbofan_flags`, 16 bytes), then a `uint64_t`
(`turbofan_optimization_bits`, naturally aligned at offset 16, 8
bytes), then `MAX_FEEDBACK_NEXUS` entries of
`struct feedback_nexus_data` (two `uint32_t`, 8 bytes each), after
which the flexible `edges[]` array starts. -/
def shmem_edges_offset : Nat := 16 + 8 + 8 * MAX_FEEDBACK_NEXUS

/-- Modulus for `uint32_t` arithmetic (`2 ^ 32`). -/
def U32_MOD : Nat := 4294967296

/-! ## libcoverage: bitmap primitives (coverage.c lines 44-57) -/

/-- `edge(bits, index)`: bit `index` of the bitmap. -/
def edge (bits : Nat → Bool) (index : Nat) : Bool := bits index

/-- `set_edge(bits, index)`: set bit `index`. -/
def set_edge (bits : Nat → Bool) (index : Nat) : Nat → Bool :=
  Function.update bits index true

/-- `clear_edge(bits, index)`: clear bit `index`. -/
def clear_edge (bits : Nat → Bool) (index : Nat) : Nat → Bool :=
  Function.update bits index false

/-! ## libcoverage: context state (`struct cov_context`)

The feedback-nexus and turbofan-optimization-bit fields of the C
struct are omitted: no claim refers to them and the operations that
touch them (`cov_update_feedback_nexus`, `cov_update_optimization_bits`)
do not read or write any of the fields modelled here.  The `edge_count`
pointer, which is `NULL` when `should_track_edges` is unset, is
modelled as a total function that is never read or written in that
case. -/

structure cov_context where
  should_track_edges : Bool
  /-- Bitmap of edges not yet discovered (`uint8_t* virgin_bits`). -/
  virgin_bits : Nat → Bool
  /-- Bitmap of edges not yet discovered in crashes (`uint8_t* crash_bits`). -/
  crash_bits : Nat → Bool
  /-- `uint32_t num_edges` (the child-reported count plus one). -/
  num_edges : Nat
  /-- `uint32_t bitmap_size`, in bytes. -/
  bitmap_size : Nat
  /-- `uint32_t found_edges`. -/
  found_edges : Nat
  /-- `uint32_t* edge_count` (per-edge hit counters). -/
  edge_count : Nat → Nat

/-- Failure modes of `cov_finish_initialization` (in C both are
reported by printing a message and calling `exit(-1)`; the two message
texts distinguish them). -/
inductive CovError where
  | notInstrumented
  | tooManyEdges
deriving DecidableEq

/-- The internal edge count after `num_edges += 1` (coverage.c line
114).  `num_edges` is a `uint32_t`, so the increment wraps: a child
report of `2 ^ 32 - 1` yields internal count 0.  The argument is
reduced modulo `2 ^ 32` because the shared-memory field it is read
from is itself 32 bits wide. -/
def cov_num_edges_internal (n : Nat) : Nat := (n % U32_MOD + 1) % U32_MOD

/-- The two bitmap-size statements of coverage.c lines 124-125:
`bitmap_size = (num_edges + 7) / 8` followed by
`bitmap_size += 7 - ((bitmap_size - 1) % 8)`, in `uint32_t`
arithmetic.  Both the addition `num_edges + 7` and the subtraction
`bitmap_size - 1` wrap at `2 ^ 32`; the latter matters when
`bitmap_size` is 0 (wrapped internal count 0), where
`(0 - 1) % 8 = 7` and the final size is 0. -/
def cov_bitmap_size (ne : Nat) : Nat :=
  (ne + 7) % U32_MOD / 8 +
    (7 - ((ne + 7) % U32_MOD / 8 + (U32_MOD - 1)) % U32_MOD % 8)

/-- `cov_finish_initialization(context, should_track_edges)`
(coverage.c lines 104-152).  `n` is the child-reported
`context->shmem->num_edges` (a `uint32_t`); the C code fails if it is
zero, then increments it by one in `uint32_t` (edge 0 is reserved; a
report of `2 ^ 32 - 1` wraps the internal count to 0), fails if the
incremented count exceeds `MAX_EDGES`, computes `bitmap_size` (see
`cov_bitmap_size`), allocates virgin and crash bitmaps filled with
`0xff`, zero-fills the hit-counter array when tracking is requested,
and finally clears bit 0 of both bitmaps.  `found0` is the value of
the (not otherwise initialized) `found_edges` field carried by the
surrounding context allocation. -/
def cov_finish_initialization (found0 n : Nat) (track : Bool) :
    Except CovError cov_context :=
  if n % U32_MOD = 0 then .error .notInstrumented
  else if cov_num_edges_internal n > MAX_EDGES then .error .tooManyEdges
  else .ok {
    should_track_edges := track
    virgin_bits := clear_edge (fun _ => true) 0
    crash_bits := clear_edge (fun _ => true) 0
    num_edges := cov_num_edges_internal n
    bitmap_size := cov_bitmap_size (cov_num_edges_internal n)
    found_edges := found0
    edge_count := fun _ => 0 }

/-! ## libcoverage: `internal_evaluate` (coverage.c lines 166-213)

The first pass walks the live bitmap in 64-bit words
(`while (current < end)`), and for each word whose value is nonzero
and overlaps the corresponding virgin word, walks the 64 bits of that
word, clearing each bit set in both maps from the virgin map and
appending its index to the result list.  The second pass, entered only
when `should_track_edges` is set, walks every bit of every word and
increments `edge_count[i]` for each set live bit. -/

/-- The test `*current != 0` on the 64-bit live word starting at bit
`base`. -/
def word_nonzero (bits : Nat → Bool) (base : Nat) : Bool :=
  (List.range 64).any fun j => bits (base + j)

/-- The test `(*current & *virgin) != 0` on the 64-bit words starting
at bit `base`. -/
def word_overlap (a b : Nat → Bool) (base : Nat) : Bool :=
  (List.range 64).any fun j => a (base + j) && b (base + j)

/-- Inner bit loop of the first pass
(`for (uint32_t i = index; i < index + 64; i++)`): `k` bits remain,
`i` is the next bit index, `virgin` the current virgin map and `acc`
the indices collected so far. -/
def scan_word (live : Nat → Bool) : Nat → Nat → (Nat → Bool) → List Nat →
    (Nat → Bool) × List Nat
  | 0, _, virgin, acc => (virgin, acc)
  | k + 1, i, virgin, acc =>
    if live i && virgin i then
      scan_word live k (i + 1) (clear_edge virgin i) (acc ++ [i])
    else
      scan_word live k (i + 1) virgin acc

/-- Outer word loop of the first pass: `w` words remain and `base` is
the bit index of the next word. -/
def scan_words (live : Nat → Bool) : Nat → Nat → (Nat → Bool) → List Nat →
    (Nat → Bool) × List Nat
  | 0, _, virgin, acc => (virgin, acc)
  | w + 1, base, virgin, acc =>
    if word_nonzero live base && word_overlap live virgin base then
      let r := scan_word live 64 base virgin acc
      scan_words live w (base + 64) r.1 r.2
    else
      scan_words live w (base + 64) virgin acc

/-- Second pass (edge-count update): `k` bits remain, `i` is the next
bit index.  `edge_count[i]++` wraps at `2 ^ 32`. -/
def count_pass (live : Nat → Bool) : Nat → Nat → (Nat → Nat) → (Nat → Nat)
  | 0, _, counts => counts
  | k + 1, i, counts =>
    count_pass live k (i + 1)
      (if live i then Function.update counts i ((counts i + 1) % U32_MOD)
       else counts)

/-- `internal_evaluate(context, virgin_bits, new_edges)`.  The word
loop runs `while (current < end)` with `end = edges + bitmap_size`
bytes, i.e. for `(bitmap_size + 7) / 8` words (`bitmap_size` is a
multiple of 8 for every context built by `cov_finish_initialization`).
Returns the updated virgin map, the list of newly found edge indices
(in increasing order, as built by the realloc-append in the C code)
and the updated count array. -/
def internal_evaluate (live virgin : Nat → Bool) (bitmap_size : Nat)
    (track : Bool) (counts : Nat → Nat) :
    (Nat → Bool) × List Nat × (Nat → Nat) :=
  ((scan_words live ((bitmap_size + 7) / 8) 0 virgin []).1,
   (scan_words live ((bitmap_size + 7) / 8) 0 virgin []).2,
   if track then count_pass live (64 * ((bitmap_size + 7) / 8)) 0 counts
   else counts)

/-- `cov_evaluate(context, new_edges)` (coverage.c lines 215-228):
runs `internal_evaluate` against `virgin_bits`, adds the number of new
edges to `found_edges` (`uint32_t` addition; the `new_edges->count`
field is itself a `uint32_t`), and returns whether any new edge was
found.  The feedback-nexus / optimization-bit updates performed
afterwards touch none of the modelled fields.  The live bitmap is the
current content of the shared-memory edges array. -/
def cov_evaluate (ctx : cov_context) (live : Nat → Bool) :
    cov_context × List Nat × Bool :=
  ({ ctx with
      virgin_bits :=
        (internal_evaluate live ctx.virgin_bits ctx.bitmap_size
          ctx.should_track_edges ctx.edge_count).1
      edge_count :=
        (internal_evaluate live ctx.virgin_bits ctx.bitmap_size
          ctx.should_track_edges ctx.edge_count).2.2
      found_edges :=
        (ctx.found_edges +
          (internal_evaluate live ctx.virgin_bits ctx.bitmap_size
            ctx.should_track_edges ctx.edge_count).2.1.length % U32_MOD) %
          U32_MOD },
   (internal_evaluate live ctx.virgin_bits ctx.bitmap_size
     ctx.should_track_edges ctx.edge_count).2.1,
   decide (0 < (internal_evaluate live ctx.virgin_bits ctx.bitmap_size
     ctx.should_track_edges ctx.edge_count).2.1.length))

/-- `cov_evaluate_crash(context)` (coverage.c lines 230-236): runs the
same `internal_evaluate` against `crash_bits` (including its
edge-count pass when tracking is enabled), frees the collected index
list, and returns whether any new crash edge was found.  It does not
touch `found_edges`. -/
def cov_evaluate_crash (ctx : cov_context) (live : Nat → Bool) :
    cov_context × Bool :=
  ({ ctx with
      crash_bits :=
        (internal_evaluate live ctx.crash_bits ctx.bitmap_size
          ctx.should_track_edges ctx.edge_count).1
      edge_count :=
        (internal_evaluate live ctx.crash_bits ctx.bitmap_size
          ctx.should_track_edges ctx.edge_count).2.2 },
   decide (0 < (internal_evaluate live ctx.crash_bits ctx.bitmap_size
     ctx.should_track_edges ctx.edge_count).2.1.length))

/-- `cov_clear_edge_data(context, index)` (coverage.c lines 271-280):
zero the hit count (when tracking), decrement `found_edges`
(`uint32_t` subtraction, so it wraps on underflow) and set the virgin
bit back.  The C code asserts `edge_count[index] != 0` (when tracking)
and `!edge(virgin_bits, index)`. -/
def cov_clear_edge_data (ctx : cov_context) (index : Nat) : cov_context :=
  { ctx with
      edge_count :=
        if ctx.should_track_edges then Function.update ctx.edge_count index 0
        else ctx.edge_count
      found_edges := (ctx.found_edges + (U32_MOD - 1)) % U32_MOD
      virgin_bits := set_edge ctx.virgin_bits index }

/-- `cov_reset_state(context)` (coverage.c lines 282-315): refill
virgin and crash bitmaps with ones, clear bit 0 of both, zero the hit
counters, and reset `found_edges`. -/
def cov_reset_state (ctx : cov_context) : cov_context :=
  { ctx with
      virgin_bits := clear_edge (fun _ => true) 0
      crash_bits := clear_edge (fun _ => true) 0
      edge_count := fun _ => 0
      found_edges := 0 }

/-- Number of cleared bits in the allocated `virgin_bits` buffer
(`bitmap_size` bytes, i.e. `8 * bitmap_size` bits). -/
def zeroBits (ctx : cov_context) : Nat :=
  (List.range (8 * ctx.bitmap_size)).countP fun i => !ctx.virgin_bits i

/-- One parent-side coverage operation, as in the public libcoverage
API.  `clear_bitmap` zeroes only the shared-memory live bitmap (which
is an argument of the evaluation operations here, not part of the
context), so it leaves the context unchanged.  `clear_edge_data`
carries the preconditions under which the fuzzer invokes it: the
virgin bit of `index` is already cleared (the C assertion), the index
is inside the bitmap, the index is a real edge index (nonzero; edge 0
is reserved and never reported), and its hit count is nonzero when
tracking (the other C assertion). -/
inductive CovStep : cov_context → cov_context → Prop where
  | evaluate (ctx : cov_context) (live : Nat → Bool) :
      CovStep ctx (cov_evaluate ctx live).1
  | evaluate_crash (ctx : cov_context) (live : Nat → Bool) :
      CovStep ctx (cov_evaluate_crash ctx live).1
  | clear_bitmap (ctx : cov_context) : CovStep ctx ctx
  | clear_edge_data (ctx : cov_context) (index : Nat)
      (hvirgin : ctx.virgin_bits index = false)
      (hnz : index ≠ 0)
      (hlt : index < 8 * ctx.bitmap_size)
      (hcount : ctx.should_track_edges = true → ctx.edge_count index ≠ 0) :
      CovStep ctx (cov_clear_edge_data ctx index)
  | reset_state (ctx : cov_context) : CovStep ctx (cov_reset_state ctx)

/-- Reachability by a sequence of coverage operations. -/
inductive CovReach (start : cov_context) : cov_context → Prop where
  | refl : CovReach start start
  | tail {mid fin : cov_context} :
      CovReach start mid → CovStep mid fin → CovReach start fin

/-- Invariant carried by every context reachable from
`cov_finish_initialization` (with `found_edges` starting at 0). -/
def CovInv (ctx : cov_context) : Prop :=
  ctx.found_edges + 1 = zeroBits ctx ∧
  ctx.virgin_bits 0 = false ∧
  ctx.bitmap_size % 8 = 0 ∧
  8 ≤ ctx.bitmap_size ∧
  8 * ctx.bitmap_size < U32_MOD

/-- Whether a `cov_finish_initialization` result is a success. -/
def cov_result_ok : Except CovError cov_context → Bool
  | .ok _ => true
  | .error _ => false

/-- The error of a failed `cov_finish_initialization` result. -/
def cov_result_error : Except CovError cov_context → Option CovError
  | .ok _ => none
  | .error e => some e

/-- The `bitmap_size` of a successful `cov_finish_initialization`
result (0 on failure). -/
def cov_result_bitmap_size : Except CovError cov_context → Nat
  | .ok ctx => ctx.bitmap_size
  | .error _ => 0

/-- The `bitmap_size` the specification prescribes for a child that
reported `n` edges: `ceil((n + 1) / 8)` bytes, rounded up to the next
multiple of 8. -/
def bitmap_size_spec (n : Nat) : Nat := ((n + 1 + 7) / 8 + 7) / 8 * 8

/-! ## Concrete coverage contexts used by witnesses -/

/-- The context produced by `cov_finish_initialization 0 16 false`:
a child that reported 16 edges, tracking disabled. -/
def covW : cov_context :=
  { should_track_edges := false
    virgin_bits := clear_edge (fun _ => true) 0
    crash_bits := clear_edge (fun _ => true) 0
    num_edges := 17
    bitmap_size := 8
    found_edges := 0
    edge_count := fun _ => 0 }

/-- The context produced by `cov_finish_initialization 0 16 true`:
same shape with edge tracking enabled. -/
def covTrackW : cov_context :=
  { should_track_edges := true
    virgin_bits := clear_edge (fun _ => true) 0
    crash_bits := clear_edge (fun _ => true) 0
    num_edges := 17
    bitmap_size := 8
    found_edges := 0
    edge_count := fun _ => 0 }

/-- The context produced by
`cov_finish_initialization 0 4294967295 false`: the child report is
`2 ^ 32 - 1`, so the `uint32_t` increment wraps the internal edge
count to 0, the `MAX_EDGES` check passes, and the computed
`bitmap_size` is 0. -/
def covDegenW : cov_context :=
  { should_track_edges := false
    virgin_bits := clear_edge (fun _ => true) 0
    crash_bits := clear_edge (fun _ => true) 0
    num_edges := 0
    bitmap_size := 0
    found_edges := 0
    edge_count := fun _ => 0 }

/-- A live bitmap with exactly bit 3 set. -/
def liveSingleW : Nat → Bool := fun i => decide (i = 3)

/-- A live bitmap with exactly bits 1 and 2 set. -/
def livePairW : Nat → Bool := fun i => decide (i = 1 ∨ i = 2)

/-- A live bitmap with exactly bit 1 set. -/
def liveOneW : Nat → Bool := fun i => decide (i = 1)

/-! ## libreprl: constants and state (libreprl.h, libreprl.c)

The POSIX branch of `libreprl.c` is modelled.  A data channel is a
16 MiB RAM-backed file with a current file position and a mapped byte
content.  Operating-system interactions of `reprl_execute` are
resolved by an `ExecEnv` record (one field per system interaction the
C code performs), and every externally visible action of the parent is
appended to a trace, so that claims about what the call did or did not
do to the child and the channels are statements about that trace.
Timing (`execution_time`) is not modelled. -/

/-- `#define REPRL_MAX_DATA_SIZE (16 << 20)` -/
def REPRL_MAX_DATA_SIZE : Nat := 16777216

/-- `struct data_channel`: the mapped content (a byte per index) and
the current file position of the underlying descriptor. -/
structure data_channel where
  pos : Nat
  mapping : Nat → Nat

/-- `struct reprl_context` (POSIX fields relevant to the modelled
behaviour).  `pid = 0` means no child process is currently running.
The control-pipe descriptors are only valid while `pid ≠ 0` and carry
no modelled state of their own.  Note that in this source tree the
channel called `data_out` is the one the parent writes scripts into
(the child receives it as its data-in descriptor) and `data_in` is the
one `reprl_fetch_fuzzout` reads. -/
structure reprl_context where
  initialized : Bool
  pid : Nat
  data_in : data_channel
  data_out : data_channel
  child_stdout : Option data_channel
  child_stderr : Option data_channel
  last_error : Option String

/-- `reprl_error(ctx, ...)`: replace the stored last-error string. -/
def set_error (ctx : reprl_context) (msg : String) : reprl_context :=
  { ctx with last_error := some msg }

/-- Externally visible actions performed by `reprl_execute`. -/
inductive REAction where
  /-- `kill(pid, SIGKILL)` -/
  | killChild (pid : Nat)
  /-- blocking `waitpid(pid, ...)` -/
  | waitChild (pid : Nat)
  /-- fork + HELO handshake producing a new child -/
  | spawnChild (pid : Nat)
  /-- `memcpy` of the script into the script data channel -/
  | writeScript (length : Nat)
  /-- the two control-pipe writes: `"exec"` then the 8-byte length -/
  | writeCtrlExec (length : Nat)
  /-- the 4-byte status read from the control pipe -/
  | readStatus
deriving DecidableEq

/-- Outcome of `poll(&fds, 1, timeout_ms)`: 0 (timeout), 1 (ready) or
an error return. -/
inductive PollResult where
  | timeout
  | ready
  | error
deriving DecidableEq

/-- Outcomes of the system interactions performed by one
`reprl_execute` call. -/
structure ExecEnv where
  /-- whether `reprl_spawn_child` (fork, HELO handshake) succeeds -/
  spawnOk : Bool
  /-- pid of the newly spawned child when it succeeds (nonzero) -/
  spawnPid : Nat
  /-- error message when spawning fails -/
  spawnErr : String
  /-- whether both control-pipe writes of `"exec"` + length succeed -/
  writeOk : Bool
  /-- `waitpid(pid, &status, WNOHANG)` result probed after a failed
  write: `some rawStatus` if the child was reaped -/
  writeFailReap : Option Nat
  /-- result of the poll on the control-in pipe -/
  poll : PollResult
  /-- return value of `read(ctx->ctrl_in, &status, 4)` -/
  readLen : Int
  /-- the status word read when `readLen = 4` -/
  readStatus : Nat
  /-- outcome of the bounded `waitpid(WNOHANG)` retry loop after a
  short read: `some rawStatus` if the child was reaped in time -/
  reapStatus : Option Nat

/-- Results of `reprl_execute`: a nonnegative status word or an error
(negative return with the message stored as the last error). -/
inductive ExecResult where
  | status (s : Nat)
  | err (msg : String)
deriving DecidableEq

/-- `reprl_terminate_child(ctx)` (libreprl.c lines 270-285): when a
child is running, SIGKILL it, wait for it, and mark it terminated
(clearing `pid` and closing the control pipes). -/
def reprl_terminate_child (ctx : reprl_context) :
    reprl_context × List REAction :=
  if ctx.pid = 0 then (ctx, [])
  else ({ ctx with pid := 0 }, [.killChild ctx.pid, .waitChild ctx.pid])

/-- `WIFEXITED(status)` for a raw wait status: low 7 bits zero. -/
def WIFEXITED (status : Nat) : Bool := status &&& 0x7f == 0

/-- `WTERMSIG(status)`: the low 7 bits. -/
def WTERMSIG (status : Nat) : Nat := status &&& 0x7f

/-- `WIFSIGNALED(status)`: the low 7 bits are neither 0 nor 0x7f. -/
def WIFSIGNALED (status : Nat) : Bool :=
  WTERMSIG status != 0 && WTERMSIG status != 0x7f

/-- `WEXITSTATUS(status)`: bits 8-15. -/
def WEXITSTATUS (status : Nat) : Nat := (status >>> 8) &&& 0xff

/-- The part of `reprl_execute` that runs once a child instance is
guaranteed to exist (libreprl.c lines 599-719): copy the script into
the script channel, send `"exec"` and the length over the control
pipe (diagnosing a child that died between executions if the write
fails), poll for the response with the timeout, and read and decode
the 4-byte status.  Returns the result, the updated context, and the
list of actions performed (to be appended to the caller's trace). -/
def reprl_execute_after_spawn (ctx : reprl_context) (script : Nat → Nat)
    (script_length : Nat) (env : ExecEnv) :
    ExecResult × reprl_context × List REAction :=
  let ctx := { ctx with
    data_out := { ctx.data_out with
      mapping := fun idx =>
        if idx < script_length then script idx else ctx.data_out.mapping idx } }
  if env.writeOk = false then
    match env.writeFailReap with
    | some st =>
      if WIFEXITED st then
        (.err "Child unexpectedly exited between executions",
         set_error { ctx with pid := 0 }
           "Child unexpectedly exited between executions",
         [.writeScript script_length])
      else
        (.err "Child unexpectedly terminated with signal between executions",
         set_error { ctx with pid := 0 }
           "Child unexpectedly terminated with signal between executions",
         [.writeScript script_length])
    | none =>
      (.err "Failed to send command to child process",
       set_error ctx "Failed to send command to child process",
       [.writeScript script_length])
  else
    match env.poll with
    | .timeout =>
      (.status (1 <<< 16), (reprl_terminate_child ctx).1,
       [.writeScript script_length, .writeCtrlExec script_length] ++
         (reprl_terminate_child ctx).2)
    | .error =>
      (.err "Failed to poll", set_error ctx "Failed to poll",
       [.writeScript script_length, .writeCtrlExec script_length])
    | .ready =>
      if env.readLen < 0 then
        (.err "Failed to read from control pipe",
         set_error ctx "Failed to read from control pipe",
         [.writeScript script_length, .writeCtrlExec script_length,
          .readStatus])
      else if env.readLen ≠ 4 then
        match env.reapStatus with
        | none =>
          (.err "Child in weird state after execution",
           set_error (reprl_terminate_child ctx).1
             "Child in weird state after execution",
           [.writeScript script_length, .writeCtrlExec script_length,
            .readStatus] ++ (reprl_terminate_child ctx).2)
        | some st =>
          if WIFEXITED st then
            (.status (WEXITSTATUS st <<< 8 &&& 0xffff), { ctx with pid := 0 },
             [.writeScript script_length, .writeCtrlExec script_length,
              .readStatus])
          else if WIFSIGNALED st then
            (.status (WTERMSIG st &&& 0xffff), { ctx with pid := 0 },
             [.writeScript script_length, .writeCtrlExec script_length,
              .readStatus])
          else
            (.err "Waitpid returned unexpected child state",
             set_error { ctx with pid := 0 }
               "Waitpid returned unexpected child state",
             [.writeScript script_length, .writeCtrlExec script_length,
              .readStatus])
      else
        (.status (env.readStatus &&& 0xffff), ctx,
         [.writeScript script_length, .writeCtrlExec script_length,
          .readStatus])

/-- `reprl_execute(ctx, script, script_length, timeout, execution_time,
fresh_instance)` (libreprl.c lines 551-721, POSIX branch): check
initialization and script size, terminate the current child when a
fresh instance is requested, rewind all data channels, spawn a child
if none is running, then deliver and run the script
(`reprl_execute_after_spawn`).  The `timeout` argument bounds the
poll; whether the poll timed out is part of `env`. -/
def reprl_execute (ctx : reprl_context) (script : Nat → Nat)
    (script_length : Nat) (timeout : Nat) (fresh_instance : Bool)
    (env : ExecEnv) : ExecResult × reprl_context × List REAction :=
  if ctx.initialized = false then
    (.err "REPRL context is not initialized",
     set_error ctx "REPRL context is not initialized", [])
  else if script_length > REPRL_MAX_DATA_SIZE then
    (.err "Script too large", set_error ctx "Script too large", [])
  else
    let s1 :=
      if fresh_instance = true ∧ ctx.pid ≠ 0 then reprl_terminate_child ctx
      else (ctx, ([] : List REAction))
    let ctx1 := { s1.1 with
      data_out := { s1.1.data_out with pos := 0 }
      data_in := { s1.1.data_in with pos := 0 }
      child_stdout := Option.map (fun c => { c with pos := 0 }) s1.1.child_stdout
      child_stderr := Option.map (fun c => { c with pos := 0 }) s1.1.child_stderr }
    if ctx1.pid = 0 then
      if env.spawnOk = true then
        let s2 := reprl_execute_after_spawn { ctx1 with pid := env.spawnPid }
          script script_length env
        (s2.1, s2.2.1, s1.2 ++ [.spawnChild env.spawnPid] ++ s2.2.2)
      else
        (.err env.spawnErr, set_error ctx1 env.spawnErr, s1.2)
    else
      let s2 := reprl_execute_after_spawn ctx1 script script_length env
      (s2.1, s2.2.1, s1.2 ++ s2.2.2)

/-- `RIFSIGNALED(status)` (libreprl.c lines 726-729). -/
def RIFSIGNALED (status : Nat) : Bool := status &&& 0xff != 0

/-- `RIFTIMEDOUT(status)` (libreprl.c lines 736-739). -/
def RIFTIMEDOUT (status : Nat) : Bool := status &&& 0xff0000 != 0

/-- `RIFEXITED(status)` (libreprl.c lines 731-734). -/
def RIFEXITED (status : Nat) : Bool :=
  !RIFSIGNALED status && !RIFTIMEDOUT status

/-- `RTERMSIG(status)` (libreprl.c lines 741-744). -/
def RTERMSIG (status : Nat) : Nat := status &&& 0xff

/-- `REXITSTATUS(status)` (libreprl.c lines 746-749). -/
def REXITSTATUS (status : Nat) : Nat := (status >>> 8) &&& 0xff

/-- `fetch_data_channel_content(channel)` (libreprl.c lines 751-762):
for a missing channel return the empty string (modelled as the
all-zero byte content); otherwise cap the current file position at
`REPRL_MAX_DATA_SIZE - 1`, write a NUL byte at that offset of the
mapping and return the mapping as a C string. -/
def fetch_data_channel_content : Option data_channel → (Nat → Nat)
  | none => fun _ => 0
  | some channel =>
    Function.update channel.mapping (min channel.pos (REPRL_MAX_DATA_SIZE - 1)) 0

/-- `reprl_fetch_stdout(ctx)`. -/
def reprl_fetch_stdout (ctx : reprl_context) : Nat → Nat :=
  fetch_data_channel_content ctx.child_stdout

/-- `reprl_fetch_stderr(ctx)`. -/
def reprl_fetch_stderr (ctx : reprl_context) : Nat → Nat :=
  fetch_data_channel_content ctx.child_stderr

/-- Length of the C-string view of a fetched data-channel content:
the number of leading nonzero bytes (within the 16 MiB mapping). -/
def cstr_len (f : Nat → Nat) : Nat :=
  ((List.range REPRL_MAX_DATA_SIZE).takeWhile fun i => f i != 0).length

/-! ## Concrete REPRL contexts used by witnesses -/

/-- An initialized REPRL context with a live child (pid 7) and both
capture channels present. -/
def reprlW : reprl_context :=
  { initialized := true
    pid := 7
    data_in := { pos := 0, mapping := fun _ => 0 }
    data_out := { pos := 0, mapping := fun _ => 0 }
    child_stdout := some { pos := 5, mapping := fun i => if i < 5 then 65 else 0 }
    child_stderr := none
    last_error := none }

/-- An environment in which the control-pipe write succeeds and the
poll times out. -/
def envTimeoutW : ExecEnv :=
  { spawnOk := true
    spawnPid := 9
    spawnErr := ""
    writeOk := true
    writeFailReap := none
    poll := .timeout
    readLen := 4
    readStatus := 0
    reapStatus := none }

/-- An environment in which everything succeeds and the child reports
status 0. -/
def envOkW : ExecEnv :=
  { spawnOk := true
    spawnPid := 9
    spawnErr := ""
    writeOk := true
    writeFailReap := none
    poll := .ready
    readLen := 4
    readStatus := 0
    reapStatus := none }

/-! ## Helper lemmas: ranges and counting -/

theorem range_map_add_succ (i k : Nat) :
    (List.range (k + 1)).map (i + ·) = i :: (List.range k).map (i + 1 + ·) := by
  rw [List.range_succ_eq_map, List.map_cons, List.map_map]
  refine congrArg₂ _ (by omega) (List.map_congr_left ?_)
  intro a _
  simp only [Function.comp_apply, Nat.succ_eq_add_one]
  omega

theorem range_map_add_block (base w : Nat) :
    (List.range (64 * (w + 1))).map (base + ·) =
      ((List.range 64).map (base + ·)) ++
        ((List.range (64 * w)).map (base + 64 + ·)) := by
  have h : 64 * (w + 1) = 64 + 64 * w := by ring
  rw [h, List.range_add, List.map_append, List.map_map]
  refine congrArg _ (List.map_congr_left ?_)
  intro a _
  simp only [Function.comp_apply]
  omega

theorem range_map_zero_add (n : Nat) :
    (List.range n).map (0 + ·) = List.range n := by
  have h : ∀ a ∈ List.range n, 0 + a = id a := by intro a _; simp
  rw [List.map_congr_left h, List.map_id]

theorem countP_ext (l : List Nat) (p q : Nat → Bool)
    (h : ∀ a ∈ l, p a = q a) : l.countP p = l.countP q := by
  induction l with
  | nil => rfl
  | cons a t ih =>
    rw [List.countP_cons, List.countP_cons, h a (List.mem_cons_self a t),
      ih fun b hb => h b (List.mem_cons_of_mem a hb)]

theorem countP_and_split (l : List Nat) (live v : Nat → Bool) :
    l.countP (fun i => !(v i && !live i)) =
      l.countP (fun i => !v i) + l.countP (fun i => live i && v i) := by
  induction l with
  | nil => rfl
  | cons a t ih =>
    rw [List.countP_cons, List.countP_cons, List.countP_cons, ih]
    cases hv : v a <;> cases hl : live a <;> simp <;> omega

theorem countP_update_true (l : List Nat) (v : Nat → Bool) (i : Nat)
    (hnd : l.Nodup) (hmem : i ∈ l) (hvi : v i = false) :
    l.countP (fun j => !(Function.update v i true j)) + 1 =
      l.countP (fun j => !v j) := by
  induction l with
  | nil => simp at hmem
  | cons a t ih =>
    rw [List.countP_cons, List.countP_cons]
    by_cases ha : a = i
    · subst ha
      have hni : a ∉ t := (List.nodup_cons.mp hnd).1
      have ht : t.countP (fun j => !(Function.update v a true j)) =
          t.countP (fun j => !v j) := by
        refine countP_ext t _ _ ?_
        intro b hb
        rw [Function.update_noteq (by rintro rfl; exact hni hb)]
      rw [ht, Function.update_same, hvi]
      simp
    · have hmem' : i ∈ t := by
        rcases List.mem_cons.mp hmem with h | h
        · exact absurd h.symm ha
        · exact h
      have := ih (List.nodup_cons.mp hnd).2 hmem'
      rw [Function.update_noteq ha]
      omega

theorem countP_two_le (l : List Nat) (p : Nat → Bool) (a b : Nat)
    (hab : a ≠ b) (ha : a ∈ l) (hb : b ∈ l)
    (hpa : p a = true) (hpb : p b = true) : 2 ≤ l.countP p := by
  induction l with
  | nil => simp at ha
  | cons x t ih =>
    rw [List.countP_cons]
    rcases List.mem_cons.mp ha with rfl | ha'
    · have hbt : b ∈ t := by
        rcases List.mem_cons.mp hb with h | h
        · exact absurd h.symm hab
        · exact h
      have h1 : 0 < t.countP p := List.countP_pos_iff.mpr ⟨b, hbt, hpb⟩
      rw [hpa, if_pos rfl]; omega
    · rcases List.mem_cons.mp hb with rfl | hb'
      · have h1 : 0 < t.countP p := List.countP_pos_iff.mpr ⟨a, ha', hpa⟩
        rw [hpb, if_pos rfl]; omega
      · have := ih ha' hb'
        omega

theorem countP_range_eq_zero_bit (n : Nat) (hn : 0 < n) :
    (List.range n).countP (fun i => !(clear_edge (fun _ => true) 0 i)) = 1 := by
  induction n with
  | zero => omega
  | succ m ih =>
    rw [List.range_succ, List.countP_append]
    rcases Nat.eq_zero_or_pos m with rfl | hm
    · simp [clear_edge]
    · rw [ih hm]
      have hmne : (fun i => !(clear_edge (fun _ => true) 0 i)) m = false := by
        simp [clear_edge, Function.update_noteq (by omega : m ≠ 0)]
      simp [hmne]

/-! ## Characterization of the evaluation loops -/

theorem scan_word_spec (live : Nat → Bool) (k : Nat) :
    ∀ (i : Nat) (virgin : Nat → Bool) (acc : List Nat),
      (scan_word live k i virgin acc).2 =
        acc ++ ((List.range k).map (i + ·)).filter
          (fun j => live j && virgin j) ∧
      ∀ m, (scan_word live k i virgin acc).1 m =
        (virgin m && !(decide (i ≤ m ∧ m < i + k) && live m)) := by
  induction k with
  | zero =>
    intro i virgin acc
    constructor
    · simp [scan_word]
    · intro m
      have h : decide (i ≤ m ∧ m < i + 0) = false :=
        decide_eq_false (by omega)
      simp [scan_word, h]
      exact fun _ => Or.inl (by omega)
  | succ k ih =>
    intro i virgin acc
    rw [scan_word]
    by_cases h : (live i && virgin i) = true
    · rw [if_pos h]
      have hli : live i = true := (Bool.and_eq_true_iff.mp h).1
      have hvi : virgin i = true := (Bool.and_eq_true_iff.mp h).2
      obtain ⟨ih1, ih2⟩ := ih (i + 1) (clear_edge virgin i) (acc ++ [i])
      constructor
      · have hcongr :
            ((List.range k).map (i + 1 + ·)).filter
              (fun j => live j && clear_edge virgin i j) =
            ((List.range k).map (i + 1 + ·)).filter
              (fun j => live j && virgin j) := by
          refine List.filter_congr ?_
          intro j hj
          obtain ⟨a, _, rfl⟩ := List.mem_map.mp hj
          rw [clear_edge, Function.update_noteq (by omega)]
        rw [ih1, hcongr, List.append_assoc, List.singleton_append,
          range_map_add_succ, List.filter_cons]
        simp [hli, hvi]
      · intro m
        rw [ih2 m]
        by_cases hm : m = i
        · subst hm
          have hrange : (m ≤ m ∧ m < m + (k + 1)) := by omega
          simp [clear_edge, Function.update_same, hrange, hli, hvi]
        · rw [clear_edge, Function.update_noteq hm]
          have hiff : (i + 1 ≤ m ∧ m < i + 1 + k) ↔
              (i ≤ m ∧ m < i + (k + 1)) := by omega
          rw [decide_eq_decide.mpr hiff]
    · rw [if_neg h]
      have h' : (live i && virgin i) = false := by
        cases hx : (live i && virgin i)
        · rfl
        · exact absurd hx h
      obtain ⟨ih1, ih2⟩ := ih (i + 1) virgin acc
      constructor
      · rw [ih1, range_map_add_succ, List.filter_cons]
        simp [h']
      · intro m
        rw [ih2 m]
        by_cases hm : m = i
        · subst hm
          have h1 : ¬(m + 1 ≤ m ∧ m < m + 1 + k) := by omega
          have h2 : (m ≤ m ∧ m < m + (k + 1)) := by omega
          rcases Bool.and_eq_false_iff.mp h' with hl | hv
          · simp [h1, h2, hl]
          · simp [h1, h2, hv]
        · have hiff : (i + 1 ≤ m ∧ m < i + 1 + k) ↔
              (i ≤ m ∧ m < i + (k + 1)) := by omega
          rw [decide_eq_decide.mpr hiff]

theorem scan_words_spec (live : Nat → Bool) (w : Nat) :
    ∀ (base : Nat) (virgin : Nat → Bool) (acc : List Nat),
      (scan_words live w base virgin acc).2 =
        acc ++ ((List.range (64 * w)).map (base + ·)).filter
          (fun j => live j && virgin j) ∧
      ∀ m, (scan_words live w base virgin acc).1 m =
        (virgin m && !(decide (base ≤ m ∧ m < base + 64 * w) && live m)) := by
  induction w with
  | zero =>
    intro base virgin acc
    constructor
    · simp [scan_words]
    · intro m
      have h : ¬(base ≤ m ∧ m < base + 64 * 0) := by omega
      simp [scan_words, h]
      exact fun _ => Or.inl (by omega)
  | succ w ih =>
    intro base virgin acc
    rw [scan_words]
    by_cases hc : (word_nonzero live base && word_overlap live virgin base) = true
    · rw [if_pos hc]
      obtain ⟨hw1, hw2⟩ := scan_word_spec live 64 base virgin acc
      obtain ⟨ih1, ih2⟩ := ih (base + 64)
        (scan_word live 64 base virgin acc).1
        (scan_word live 64 base virgin acc).2
      constructor
      · rw [ih1, hw1, range_map_add_block, List.filter_append,
          List.append_assoc]
        refine congrArg _ (congrArg _ (List.filter_congr ?_))
        intro j hj
        obtain ⟨a, _, rfl⟩ := List.mem_map.mp hj
        have h1 : ¬(base ≤ base + 64 + a ∧ base + 64 + a < base + 64) := by
          omega
        simp only [hw2, h1, decide_False, Bool.false_and, Bool.not_false,
          Bool.and_true]
      · intro m
        rw [ih2 m, hw2 m]
        cases hl : live m
        · simp
        · cases hv : virgin m
          · simp
          · simp only [Bool.and_true, Bool.true_and]
            rw [← Bool.not_or]
            refine congrArg Bool.not ?_
            by_cases h1 : base ≤ m ∧ m < base + 64 <;>
              by_cases h2 : base + 64 ≤ m ∧ m < base + 64 + 64 * w <;>
              simp [h1, h2] <;> omega
    · rw [if_neg hc]
      have hcf : (word_nonzero live base && word_overlap live virgin base)
          = false := by
        cases hx : (word_nonzero live base && word_overlap live virgin base)
        · rfl
        · exact absurd hx hc
      have hno : ∀ j, j < 64 →
          (live (base + j) && virgin (base + j)) = false := by
        intro j hj
        rcases Bool.and_eq_false_iff.mp hcf with hn | ho
        · simp only [word_nonzero] at hn
          have h1 := List.any_eq_false.mp hn j (List.mem_range.mpr hj)
          cases hx : live (base + j)
          · rw [Bool.false_and]
          · exact absurd hx h1
        · simp only [word_overlap] at ho
          have h1 := List.any_eq_false.mp ho j (List.mem_range.mpr hj)
          cases hx : (live (base + j) && virgin (base + j))
          · rfl
          · exact absurd hx h1
      obtain ⟨ih1, ih2⟩ := ih (base + 64) virgin acc
      constructor
      · rw [ih1, range_map_add_block, List.filter_append]
        have hnil : ((List.range 64).map (base + ·)).filter
            (fun j => live j && virgin j) = [] := by
          rw [List.filter_eq_nil_iff]
          intro a hamem
          obtain ⟨x, hx, rfl⟩ := List.mem_map.mp hamem
          rw [hno x (List.mem_range.mp hx)]
          simp
        rw [hnil, List.nil_append]
      · intro m
        rw [ih2 m]
        cases hl : live m
        · simp
        · cases hv : virgin m
          · simp
          · have hnw : ¬(base ≤ m ∧ m < base + 64) := by
              rintro ⟨h1, h2⟩
              have h3 := hno (m - base) (by omega)
              rw [(by omega : base + (m - base) = m)] at h3
              rw [hl, hv] at h3
              simp at h3
            have hiff : (base + 64 ≤ m ∧ m < base + 64 + 64 * w) ↔
                (base ≤ m ∧ m < base + 64 * (w + 1)) := by omega
            rw [decide_eq_decide.mpr hiff]

theorem count_pass_spec (live : Nat → Bool) (k : Nat) :
    ∀ (i : Nat) (counts : Nat → Nat) (m : Nat),
      count_pass live k i counts m =
        if i ≤ m ∧ m < i + k ∧ live m = true then (counts m + 1) % U32_MOD
        else counts m := by
  induction k with
  | zero =>
    intro i counts m
    have h : ¬(i ≤ m ∧ m < i + 0 ∧ live m = true) := by omega
    simp only [count_pass]
    rw [if_neg h]
  | succ k ih =>
    intro i counts m
    rw [count_pass, ih]
    by_cases hm : m = i
    · subst hm
      have h1 : ¬(m + 1 ≤ m ∧ m < m + 1 + k ∧ live m = true) := by omega
      rw [if_neg h1]
      cases hl : live m
      · rw [if_neg (by simp), if_neg (by simp)]
      · rw [if_pos rfl, if_pos ⟨Nat.le_refl m, by omega, rfl⟩,
          Function.update_same]
    · have hsame :
          (if live i = true then
            Function.update counts i ((counts i + 1) % U32_MOD)
          else counts) m = counts m := by
        split
        · exact Function.update_noteq hm _ _
        · rfl
      rw [hsame]
      by_cases h1 : i + 1 ≤ m ∧ m < i + 1 + k ∧ live m = true
      · rw [if_pos h1, if_pos ⟨by omega, by omega, h1.2.2⟩]
      · rw [if_neg h1, if_neg (fun hx => h1 ⟨by omega, by omega, hx.2.2⟩)]

theorem internal_evaluate_spec (live virgin : Nat → Bool) (bs : Nat)
    (track : Bool) (counts : Nat → Nat) (h8 : bs % 8 = 0) :
    (internal_evaluate live virgin bs track counts).2.1 =
      (List.range (8 * bs)).filter (fun j => live j && virgin j) ∧
    (∀ m, (internal_evaluate live virgin bs track counts).1 m =
      (virgin m && !(decide (m < 8 * bs) && live m))) ∧
    (∀ m, (internal_evaluate live virgin bs track counts).2.2 m =
      if track = true ∧ m < 8 * bs ∧ live m = true then
        (counts m + 1) % U32_MOD
      else counts m) := by
  have hN : 64 * ((bs + 7) / 8) = 8 * bs := by omega
  obtain ⟨hs1, hs2⟩ := scan_words_spec live ((bs + 7) / 8) 0 virgin []
  refine ⟨?_, ?_, ?_⟩
  · show (scan_words live ((bs + 7) / 8) 0 virgin []).2 = _
    rw [hs1, hN, range_map_zero_add, List.nil_append]
  · intro m
    show (scan_words live ((bs + 7) / 8) 0 virgin []).1 m = _
    rw [hs2 m,
      decide_eq_decide.mpr (by omega : (0 ≤ m ∧ m < 0 + 64 * ((bs + 7) / 8)) ↔
        m < 8 * bs)]
  · intro m
    show (if track then count_pass live (64 * ((bs + 7) / 8)) 0 counts
      else counts) m = _
    cases track
    · simp
    · rw [if_pos rfl, count_pass_spec]
      by_cases h1 : 0 ≤ m ∧ m < 0 + 64 * ((bs + 7) / 8) ∧ live m = true
      · rw [if_pos h1, if_pos ⟨rfl, by omega, h1.2.2⟩]
      · rw [if_neg h1, if_neg (fun hx => h1 ⟨by omega, by omega, hx.2.2⟩)]

/-! ## Characterization of `cov_finish_initialization` and the
`found_edges` invariant -/

theorem cov_finish_initialization_ok_iff (found0 n : Nat) (track : Bool)
    (ctx : cov_context) :
    cov_finish_initialization found0 n track = .ok ctx ↔
      n % U32_MOD ≠ 0 ∧ ¬(cov_num_edges_internal n > MAX_EDGES) ∧
        ctx = { should_track_edges := track
                virgin_bits := clear_edge (fun _ => true) 0
                crash_bits := clear_edge (fun _ => true) 0
                num_edges := cov_num_edges_internal n
                bitmap_size := cov_bitmap_size (cov_num_edges_internal n)
                found_edges := found0
                edge_count := fun _ => 0 } := by
  constructor
  · intro h
    unfold cov_finish_initialization at h
    by_cases h0 : n % U32_MOD = 0
    · rw [if_pos h0] at h; cases h
    · rw [if_neg h0] at h
      by_cases h1 : cov_num_edges_internal n > MAX_EDGES
      · rw [if_pos h1] at h; cases h
      · rw [if_neg h1] at h
        refine ⟨h0, h1, ?_⟩
        injection h with h2
        exact h2.symm
  · rintro ⟨h0, h1, rfl⟩
    unfold cov_finish_initialization
    rw [if_neg h0, if_neg h1]

theorem max_edges_value : MAX_EDGES = 16842720 := by
  norm_num [MAX_EDGES, SHM_SIZE]

theorem cov_inv_of_finish (n : Nat) (track : Bool) (ctx : cov_context)
    (hnw : cov_num_edges_internal n ≠ 0)
    (h : cov_finish_initialization 0 n track = .ok ctx) : CovInv ctx := by
  obtain ⟨h0, h1, rfl⟩ :=
    (cov_finish_initialization_ok_iff 0 n track ctx).mp h
  rw [max_edges_value] at h1
  have hb : 8 ≤ cov_bitmap_size (cov_num_edges_internal n) ∧
      cov_bitmap_size (cov_num_edges_internal n) % 8 = 0 ∧
      8 * cov_bitmap_size (cov_num_edges_internal n) < U32_MOD := by
    simp only [cov_bitmap_size, cov_num_edges_internal, U32_MOD] at hnw h1 ⊢
    omega
  refine ⟨?_, ?_, hb.2.1, hb.1, hb.2.2⟩
  · show 0 + 1 = zeroBits _
    simp only [zeroBits]
    rw [countP_range_eq_zero_bit _ (by omega)]
  · show clear_edge (fun _ => true) 0 0 = false
    simp [clear_edge]

theorem zeroBits_le (ctx : cov_context) :
    zeroBits ctx ≤ 8 * ctx.bitmap_size :=
  le_trans (List.countP_le_length _) (le_of_eq (List.length_range _))

theorem cov_inv_step {ctx fin : cov_context} (h : CovStep ctx fin)
    (hinv : CovInv ctx) : CovInv fin := by
  obtain ⟨hfz, hv0, hmod, hge, hlt⟩ := hinv
  have hzb : zeroBits ctx ≤ 8 * ctx.bitmap_size := zeroBits_le ctx
  cases h with
  | evaluate live =>
    obtain ⟨he1, he2, _⟩ := internal_evaluate_spec live ctx.virgin_bits
      ctx.bitmap_size ctx.should_track_edges ctx.edge_count hmod
    have hlen :
        (internal_evaluate live ctx.virgin_bits ctx.bitmap_size
          ctx.should_track_edges ctx.edge_count).2.1.length =
        (List.range (8 * ctx.bitmap_size)).countP
          (fun j => live j && ctx.virgin_bits j) := by
      rw [he1, List.countP_eq_length_filter]
    have hzero : zeroBits (cov_evaluate ctx live).1 =
        zeroBits ctx + (internal_evaluate live ctx.virgin_bits ctx.bitmap_size
          ctx.should_track_edges ctx.edge_count).2.1.length := by
      show (List.range (8 * ctx.bitmap_size)).countP
        (fun i => !(cov_evaluate ctx live).1.virgin_bits i) = _
      have hc1 : (List.range (8 * ctx.bitmap_size)).countP
          (fun i => !(cov_evaluate ctx live).1.virgin_bits i) =
          (List.range (8 * ctx.bitmap_size)).countP
          (fun i => !(ctx.virgin_bits i && !live i)) := by
        refine countP_ext _ _ _ ?_
        intro a ha
        have halt : a < 8 * ctx.bitmap_size := List.mem_range.mp ha
        have hstep : (cov_evaluate ctx live).1.virgin_bits a =
            (ctx.virgin_bits a && !live a) := by
          show (internal_evaluate live ctx.virgin_bits ctx.bitmap_size
            ctx.should_track_edges ctx.edge_count).1 a = _
          rw [he2 a, decide_eq_true halt, Bool.true_and]
        rw [hstep]
      rw [hc1, countP_and_split, hlen]
      rfl
    have hzb2 : zeroBits (cov_evaluate ctx live).1 ≤ 8 * ctx.bitmap_size :=
      zeroBits_le (cov_evaluate ctx live).1
    refine ⟨?_, ?_, hmod, hge, hlt⟩
    · show (ctx.found_edges +
        (internal_evaluate live ctx.virgin_bits ctx.bitmap_size
          ctx.should_track_edges ctx.edge_count).2.1.length % U32_MOD) %
        U32_MOD + 1 = zeroBits (cov_evaluate ctx live).1
      simp only [U32_MOD] at hlt ⊢
      omega
    · show (internal_evaluate live ctx.virgin_bits ctx.bitmap_size
        ctx.should_track_edges ctx.edge_count).1 0 = false
      rw [he2 0, hv0, Bool.false_and]
  | evaluate_crash live => exact ⟨hfz, hv0, hmod, hge, hlt⟩
  | clear_bitmap => exact ⟨hfz, hv0, hmod, hge, hlt⟩
  | clear_edge_data index hvirgin hnz hilt hcount =>
    have hz1 : zeroBits (cov_clear_edge_data ctx index) + 1 = zeroBits ctx := by
      show (List.range (8 * ctx.bitmap_size)).countP
        (fun i => !(cov_clear_edge_data ctx index).virgin_bits i) + 1 = _
      exact countP_update_true (List.range (8 * ctx.bitmap_size))
        ctx.virgin_bits index (List.nodup_range _)
        (List.mem_range.mpr hilt) hvirgin
    have hz2 : 2 ≤ zeroBits ctx := by
      refine countP_two_le _ _ 0 index (Ne.symm hnz) ?_ ?_ ?_ ?_
      · exact List.mem_range.mpr (by omega)
      · exact List.mem_range.mpr hilt
      · rw [hv0]; rfl
      · rw [hvirgin]; rfl
    refine ⟨?_, ?_, hmod, hge, hlt⟩
    · show (ctx.found_edges + (U32_MOD - 1)) % U32_MOD + 1 =
        zeroBits (cov_clear_edge_data ctx index)
      simp only [U32_MOD] at hlt ⊢
      omega
    · show set_edge ctx.virgin_bits index 0 = false
      simp only [set_edge]
      rw [Function.update_noteq (Ne.symm hnz), hv0]
  | reset_state =>
    refine ⟨?_, ?_, hmod, hge, hlt⟩
    · show 0 + 1 = zeroBits (cov_reset_state ctx)
      show 0 + 1 = (List.range (8 * ctx.bitmap_size)).countP
        (fun i => !(clear_edge (fun _ => true) 0 i))
      rw [countP_range_eq_zero_bit _ (by omega)]
    · show clear_edge (fun _ => true) 0 0 = false
      simp [clear_edge]

/-! ## Claim C1 -/

/-- C1: for every coverage context that has completed
`cov_finish_initialization` (all such contexts, and all contexts
produced from them by the coverage operations, have a `bitmap_size`
that is a multiple of 8) and every content of the live edge bitmap,
`cov_evaluate` returns exactly the indices whose bit is 1 in both the
live bitmap and the pre-call virgin bitmap; after the call those
virgin bits are 0 and every other virgin bit is unchanged. -/
theorem cov_evaluate_new_edges_exact (ctx : cov_context) (live : Nat → Bool)
    (h8 : ctx.bitmap_size % 8 = 0) :
    (cov_evaluate ctx live).2.1 =
      (List.range (8 * ctx.bitmap_size)).filter
        (fun i => live i && ctx.virgin_bits i) ∧
    (∀ i, i ∈ (cov_evaluate ctx live).2.1 →
      (cov_evaluate ctx live).1.virgin_bits i = false) ∧
    (∀ i, i ∉ (cov_evaluate ctx live).2.1 →
      (cov_evaluate ctx live).1.virgin_bits i = ctx.virgin_bits i) := by
  obtain ⟨he1, he2, _⟩ := internal_evaluate_spec live ctx.virgin_bits
    ctx.bitmap_size ctx.should_track_edges ctx.edge_count h8
  have hlist : (cov_evaluate ctx live).2.1 =
      (List.range (8 * ctx.bitmap_size)).filter
        (fun i => live i && ctx.virgin_bits i) := he1
  refine ⟨hlist, ?_, ?_⟩
  · intro i hi
    rw [hlist] at hi
    have h1 := List.mem_filter.mp hi
    have hilt : i < 8 * ctx.bitmap_size := List.mem_range.mp h1.1
    have hli : live i = true := (Bool.and_eq_true_iff.mp h1.2).1
    show (internal_evaluate live ctx.virgin_bits ctx.bitmap_size
      ctx.should_track_edges ctx.edge_count).1 i = false
    rw [he2 i, decide_eq_true hilt, Bool.true_and, hli, Bool.not_true,
      Bool.and_false]
  · intro i hi
    rw [hlist] at hi
    show (internal_evaluate live ctx.virgin_bits ctx.bitmap_size
      ctx.should_track_edges ctx.edge_count).1 i = ctx.virgin_bits i
    rw [he2 i]
    by_cases hilt : i < 8 * ctx.bitmap_size
    · cases hli : live i
      · simp
      · cases hvi : ctx.virgin_bits i
        · simp
        · exact absurd (List.mem_filter.mpr
            ⟨List.mem_range.mpr hilt, by rw [hli, hvi]; rfl⟩) hi
    · rw [decide_eq_false hilt, Bool.false_and, Bool.not_false, Bool.and_true]

/-- Witness for C1 at the concrete context `covW` with live bitmap
`{3}`. -/
theorem cov_evaluate_new_edges_exact_witness :
    covW.bitmap_size % 8 = 0 ∧
    ((cov_evaluate covW liveSingleW).2.1 =
      (List.range (8 * covW.bitmap_size)).filter
        (fun i => liveSingleW i && covW.virgin_bits i) ∧
    (∀ i, i ∈ (cov_evaluate covW liveSingleW).2.1 →
      (cov_evaluate covW liveSingleW).1.virgin_bits i = false) ∧
    (∀ i, i ∉ (cov_evaluate covW liveSingleW).2.1 →
      (cov_evaluate covW liveSingleW).1.virgin_bits i =
        covW.virgin_bits i)) :=
  ⟨by decide, cov_evaluate_new_edges_exact covW liveSingleW (by decide)⟩

/-! ## Claim C2 -/

/-- C2 counterexample: with edge tracking enabled,
`cov_evaluate_crash` on a live bitmap with bit 1 set increments the
hit counter of edge 1 (the crash path reuses `internal_evaluate`,
including its counting pass), so it does change an entry of
`edge_count`.  `covTrackW` is the context produced by
`cov_finish_initialization 0 16 true`. -/
theorem cov_evaluate_crash_updates_edge_count_cex :
    cov_finish_initialization 0 16 true = .ok covTrackW ∧
    covTrackW.edge_count 1 = 0 ∧
    (cov_evaluate_crash covTrackW liveOneW).1.edge_count 1 = 1 := by
  refine ⟨rfl, rfl, by decide⟩

/-- C2 (amended): `cov_evaluate_crash` never changes `virgin_bits` or
`found_edges`; with tracking disabled it leaves `edge_count`
untouched, and with tracking enabled it increments exactly the
counters of the live edges inside the bitmap. -/
theorem cov_evaluate_crash_frame (ctx : cov_context) (live : Nat → Bool)
    (h8 : ctx.bitmap_size % 8 = 0) :
    (cov_evaluate_crash ctx live).1.virgin_bits = ctx.virgin_bits ∧
    (cov_evaluate_crash ctx live).1.found_edges = ctx.found_edges ∧
    (ctx.should_track_edges = false →
      (cov_evaluate_crash ctx live).1.edge_count = ctx.edge_count) ∧
    (∀ i, (cov_evaluate_crash ctx live).1.edge_count i =
      if ctx.should_track_edges = true ∧ i < 8 * ctx.bitmap_size ∧
          live i = true
      then (ctx.edge_count i + 1) % U32_MOD else ctx.edge_count i) := by
  obtain ⟨_, _, he3⟩ := internal_evaluate_spec live ctx.crash_bits
    ctx.bitmap_size ctx.should_track_edges ctx.edge_count h8
  refine ⟨rfl, rfl, ?_, fun i => he3 i⟩
  intro htr
  funext i
  show (internal_evaluate live ctx.crash_bits ctx.bitmap_size
    ctx.should_track_edges ctx.edge_count).2.2 i = ctx.edge_count i
  rw [he3 i, if_neg (by simp [htr])]

/-- Witness for the amended C2 at the tracking context `covTrackW`
with live bitmap `{1}`. -/
theorem cov_evaluate_crash_frame_witness :
    covTrackW.bitmap_size % 8 = 0 ∧
    ((cov_evaluate_crash covTrackW liveOneW).1.virgin_bits =
        covTrackW.virgin_bits ∧
    (cov_evaluate_crash covTrackW liveOneW).1.found_edges =
        covTrackW.found_edges ∧
    (covTrackW.should_track_edges = false →
      (cov_evaluate_crash covTrackW liveOneW).1.edge_count =
        covTrackW.edge_count) ∧
    (∀ i, (cov_evaluate_crash covTrackW liveOneW).1.edge_count i =
      if covTrackW.should_track_edges = true ∧
          i < 8 * covTrackW.bitmap_size ∧ liveOneW i = true
      then (covTrackW.edge_count i + 1) % U32_MOD
      else covTrackW.edge_count i)) :=
  ⟨by decide, cov_evaluate_crash_frame covTrackW liveOneW (by decide)⟩

/-! ## Claim C3 -/

/-- C3 counterexample, two failure modes of the claim as stated.
First: starting from the freshly initialized context `covW`
(`found_edges = 0`), the single operation `cov_clear_edge_data 0` —
whose stated precondition holds, since the virgin bit of index 0 is
always 0 — wraps `found_edges` to `2 ^ 32 - 1` while the virgin
bitmap has no cleared bit left at all.  Second: a child report of
`2 ^ 32 - 1` wraps the internal `uint32_t` edge count to 0, so
`cov_finish_initialization` accepts it with `bitmap_size = 0`
(context `covDegenW`), where the equation is already false after the
empty sequence of operations. -/
theorem found_edges_invariant_cex :
    cov_finish_initialization 0 16 false = .ok covW ∧
    covW.virgin_bits 0 = false ∧
    (cov_clear_edge_data covW 0).found_edges = 4294967295 ∧
    zeroBits (cov_clear_edge_data covW 0) = 0 ∧
    cov_finish_initialization 0 4294967295 false = .ok covDegenW ∧
    ¬(covDegenW.found_edges + 1 = zeroBits covDegenW) := by
  refine ⟨rfl, by decide, by decide, by decide, rfl, by decide⟩

/-- C3 (amended): for every context reachable from a finished
initialization — with `found_edges` starting at 0, and from a child
report whose `uint32_t`-incremented edge count is nonzero, i.e.
excluding the wrap report `2 ^ 32 - 1` — by any sequence of evaluate,
evaluate_crash, clear_bitmap, clear_edge_data (under its precondition
and with a nonzero edge index) and reset_state, `found_edges + 1`
equals the number of cleared bits in `virgin_bits`. -/
theorem found_edges_invariant (n : Nat) (track : Bool)
    (ctx0 ctx : cov_context)
    (hnw : cov_num_edges_internal n ≠ 0)
    (hinit : cov_finish_initialization 0 n track = .ok ctx0)
    (hreach : CovReach ctx0 ctx) :
    ctx.found_edges + 1 = zeroBits ctx := by
  have hinv : CovInv ctx := by
    induction hreach with
    | refl => exact cov_inv_of_finish n track ctx0 hnw hinit
    | tail hr hs ih => exact cov_inv_step hs ih
  exact hinv.1

/-- Witness for C3 at the freshly initialized context `covW`. -/
theorem found_edges_invariant_witness :
    cov_num_edges_internal 16 ≠ 0 ∧
    cov_finish_initialization 0 16 false = .ok covW ∧
    covW.found_edges + 1 = zeroBits covW :=
  ⟨by decide, rfl,
   found_edges_invariant 16 false covW covW (by decide) rfl CovReach.refl⟩

/-! ## Claim C4 -/

/-- C4: the safety claim fails on the code.  A child report of
`MAX_EDGES - 1` edges is accepted by `cov_finish_initialization`
(the internal count is then exactly `MAX_EDGES`), yet the byte range
scanned by evaluate — from `offsetof(struct shmem_data, edges)` to
that offset plus `bitmap_size` — extends past the `SHM_SIZE`-byte
region; and `MAX_EDGES` is not `(SHM_SIZE - header_size) * 8`,
because the code still subtracts the 4-byte header of the original
layout while the current header is `shmem_edges_offset` bytes. -/
theorem max_edges_scan_out_of_bounds :
    cov_result_ok (cov_finish_initialization 0 (MAX_EDGES - 1) false) =
      true ∧
    SHM_SIZE < shmem_edges_offset +
      cov_result_bitmap_size
        (cov_finish_initialization 0 (MAX_EDGES - 1) false) ∧
    MAX_EDGES ≠ (SHM_SIZE - shmem_edges_offset) * 8 := by
  refine ⟨by decide, by decide, by decide⟩

/-! ## Claim C7 -/

/-- C7 counterexample, two failure modes of the claim as stated.
First: at a child report of exactly `MAX_EDGES` edges the code fails
with TooManyEdges although the report does not exceed `MAX_EDGES`.
Second: at a child report of `2 ^ 32 - 1` — which does exceed
`MAX_EDGES` — the `uint32_t` increment wraps the internal count to 0,
the `MAX_EDGES` check passes, and the code returns normally instead
of failing. -/
theorem finish_initialization_boundary_cex :
    cov_result_error (cov_finish_initialization 0 MAX_EDGES false) =
      some CovError.tooManyEdges ∧
    ¬ MAX_EDGES > MAX_EDGES ∧
    cov_result_ok (cov_finish_initialization 0 4294967295 false) = true ∧
    4294967295 > MAX_EDGES := by
  refine ⟨by decide, by omega, by decide, by decide⟩

/-- C7 (amended): `cov_finish_initialization` fails with
NotInstrumented exactly when the child-reported count (a `uint32_t`)
is 0, fails with TooManyEdges exactly when the `uint32_t`-incremented
count exceeds `MAX_EDGES` (the code increments before checking, and
the increment wraps: a report of `2 ^ 32 - 1` yields internal count 0
and is accepted), and otherwise returns normally with both bitmaps
all-ones except bit 0 and the counters zeroed. -/
theorem finish_initialization_error_conditions (found0 n : Nat)
    (track : Bool) :
    (cov_result_error (cov_finish_initialization found0 n track) =
        some CovError.notInstrumented ↔ n % U32_MOD = 0) ∧
    (cov_result_error (cov_finish_initialization found0 n track) =
        some CovError.tooManyEdges ↔
        (n % U32_MOD ≠ 0 ∧ cov_num_edges_internal n > MAX_EDGES)) ∧
    (n % U32_MOD ≠ 0 → ¬(cov_num_edges_internal n > MAX_EDGES) →
      ∃ ctx, cov_finish_initialization found0 n track = .ok ctx ∧
        ctx.virgin_bits = clear_edge (fun _ => true) 0 ∧
        ctx.crash_bits = clear_edge (fun _ => true) 0 ∧
        ctx.num_edges = cov_num_edges_internal n ∧
        ctx.found_edges = found0 ∧
        ctx.should_track_edges = track ∧
        ctx.edge_count = fun _ => 0) := by
  unfold cov_finish_initialization
  by_cases h0 : n % U32_MOD = 0
  · rw [if_pos h0]
    refine ⟨by simp [cov_result_error, h0], ?_, fun h => absurd h0 h⟩
    simp only [cov_result_error]
    constructor
    · intro h; cases h
    · rintro ⟨h, _⟩; exact absurd h0 h
  · rw [if_neg h0]
    by_cases h1 : cov_num_edges_internal n > MAX_EDGES
    · rw [if_pos h1]
      refine ⟨?_, ?_, fun _ hh => absurd h1 hh⟩
      · simp only [cov_result_error]
        constructor
        · intro h; cases h
        · intro h; exact absurd h h0
      · simp only [cov_result_error, Option.some.injEq]
        exact ⟨fun _ => ⟨h0, h1⟩, fun _ => trivial⟩
    · rw [if_neg h1]
      refine ⟨?_, ?_, ?_⟩
      · simp only [cov_result_error]
        constructor
        · intro h; cases h
        · intro h; exact absurd h h0
      · simp only [cov_result_error]
        constructor
        · intro h; cases h
        · rintro ⟨_, h⟩; exact absurd h h1
      · intro _ _
        exact ⟨_, rfl, rfl, rfl, rfl, rfl, rfl, rfl⟩

/-- Witness for the amended C7: a report of 16 edges succeeds with
the expected bitmaps, and a report of 0 edges fails with
NotInstrumented. -/
theorem finish_initialization_error_conditions_witness :
    (∃ ctx, cov_finish_initialization 0 16 false = .ok ctx ∧
        ctx.virgin_bits = clear_edge (fun _ => true) 0 ∧
        ctx.crash_bits = clear_edge (fun _ => true) 0 ∧
        ctx.num_edges = cov_num_edges_internal 16 ∧
        ctx.found_edges = 0 ∧
        ctx.should_track_edges = false ∧
        ctx.edge_count = fun _ => 0) ∧
    cov_result_error (cov_finish_initialization 0 0 false) =
      some CovError.notInstrumented :=
  ⟨(finish_initialization_error_conditions 0 16 false).2.2
      (by decide) (by decide),
   (finish_initialization_error_conditions 0 0 false).1.mpr rfl⟩

/-! ## Claim C8 -/

/-- C8 counterexample: the code accepts a child report of
`2 ^ 32 - 1` edges (the `uint32_t` increment wraps the internal count
to 0, which passes the `MAX_EDGES` check) and computes
`bitmap_size = 0`, not the claimed
`round_up(ceil((num_edges + 1) / 8), 8)` — which is nonzero for this
report. -/
theorem bitmap_size_wrap_cex :
    cov_result_ok (cov_finish_initialization 0 4294967295 false) = true ∧
    cov_result_bitmap_size (cov_finish_initialization 0 4294967295 false) =
      0 ∧
    bitmap_size_spec 4294967295 ≠ 0 := by
  refine ⟨by decide, by decide, by decide⟩

/-- C8 (amended): for every child report accepted by
`cov_finish_initialization` other than the wrap report `2 ^ 32 - 1`
(whose `uint32_t`-incremented count is 0 and whose computed
`bitmap_size` is 0), the computed `bitmap_size` equals
`ceil((n + 1) / 8)` bytes rounded up to the next multiple of 8, and
is in particular divisible by 8 so the bitmap is scanned in whole
64-bit words. -/
theorem bitmap_size_matches_spec (found0 n : Nat) (track : Bool)
    (ctx : cov_context)
    (hn32 : n < U32_MOD)
    (hnw : n + 1 ≠ U32_MOD)
    (h : cov_finish_initialization found0 n track = .ok ctx) :
    ctx.bitmap_size = bitmap_size_spec n ∧ ctx.bitmap_size % 8 = 0 := by
  obtain ⟨h0, h1, rfl⟩ :=
    (cov_finish_initialization_ok_iff found0 n track ctx).mp h
  rw [max_edges_value] at h1
  constructor
  · show cov_bitmap_size (cov_num_edges_internal n) = bitmap_size_spec n
    simp only [cov_bitmap_size, cov_num_edges_internal, bitmap_size_spec,
      U32_MOD] at h0 h1 hn32 hnw ⊢
    omega
  · show cov_bitmap_size (cov_num_edges_internal n) % 8 = 0
    simp only [cov_bitmap_size, cov_num_edges_internal,
      U32_MOD] at h0 h1 hn32 hnw ⊢
    omega

/-- Witness for the amended C8 at a report of 16 edges
(`bitmap_size = 8` bytes). -/
theorem bitmap_size_matches_spec_witness :
    (16 : Nat) < U32_MOD ∧ (16 : Nat) + 1 ≠ U32_MOD ∧
    cov_finish_initialization 0 16 false = .ok covW ∧
    (covW.bitmap_size = bitmap_size_spec 16 ∧ covW.bitmap_size % 8 = 0) :=
  ⟨by decide, by decide, rfl,
   bitmap_size_matches_spec 0 16 false covW (by decide) (by decide) rfl⟩

/-! ## Claim C9 -/

/-- C9 counterexample: with tracking enabled and live bitmap `{1, 2}`,
evaluate reports edges `[1, 2]` and sets `found_edges` to 2; calling
`cov_clear_edge_data 1` immediately afterwards (its precondition
holds: virgin bit 1 is 0) leaves `found_edges = 1`, not the
pre-evaluate value 0 — so the call does not restore `found_edges`
when the evaluate found more than one new edge. -/
theorem clear_edge_data_not_inverse_cex :
    (cov_evaluate covTrackW livePairW).2.1 = [1, 2] ∧
    (cov_evaluate covTrackW livePairW).1.virgin_bits 1 = false ∧
    covTrackW.found_edges = 0 ∧
    (cov_clear_edge_data (cov_evaluate covTrackW livePairW).1
      1).found_edges = 1 := by
  refine ⟨by decide, by decide, rfl, by decide⟩

/-- C9 (amended): if an evaluate call reported `i` as its only new
edge and (when tracking) `edge_count[i]` was zero before the call,
then `cov_clear_edge_data i` immediately afterwards restores virgin
bit `i`, `found_edges`, and `edge_count[i]` to their pre-evaluate
values. -/
theorem clear_edge_data_undoes_single_new_edge (ctx : cov_context)
    (live : Nat → Bool) (i : Nat)
    (h8 : ctx.bitmap_size % 8 = 0)
    (hfound : ctx.found_edges < U32_MOD)
    (hsingle : (cov_evaluate ctx live).2.1 = [i])
    (hcnt : ctx.should_track_edges = true → ctx.edge_count i = 0) :
    (cov_clear_edge_data (cov_evaluate ctx live).1 i).virgin_bits i =
      ctx.virgin_bits i ∧
    (cov_clear_edge_data (cov_evaluate ctx live).1 i).found_edges =
      ctx.found_edges ∧
    (cov_clear_edge_data (cov_evaluate ctx live).1 i).edge_count i =
      ctx.edge_count i := by
  obtain ⟨he1, he2, he3⟩ := internal_evaluate_spec live ctx.virgin_bits
    ctx.bitmap_size ctx.should_track_edges ctx.edge_count h8
  have hImem : i ∈ (internal_evaluate live ctx.virgin_bits ctx.bitmap_size
      ctx.should_track_edges ctx.edge_count).2.1 := by
    show i ∈ (cov_evaluate ctx live).2.1
    rw [hsingle]
    exact List.mem_singleton.mpr rfl
  have hfil := he1 ▸ hImem
  have h1 := List.mem_filter.mp hfil
  have hilt : i < 8 * ctx.bitmap_size := List.mem_range.mp h1.1
  have hli : live i = true := (Bool.and_eq_true_iff.mp h1.2).1
  have hvi : ctx.virgin_bits i = true := (Bool.and_eq_true_iff.mp h1.2).2
  refine ⟨?_, ?_, ?_⟩
  · show set_edge (cov_evaluate ctx live).1.virgin_bits i i =
      ctx.virgin_bits i
    simp only [set_edge]
    rw [Function.update_same, hvi]
  · show ((cov_evaluate ctx live).1.found_edges + (U32_MOD - 1)) %
      U32_MOD = ctx.found_edges
    have hf1 : (cov_evaluate ctx live).1.found_edges =
        (ctx.found_edges + (cov_evaluate ctx live).2.1.length % U32_MOD) %
          U32_MOD := rfl
    rw [hf1, hsingle, List.length_singleton]
    simp only [U32_MOD] at hfound ⊢
    omega
  · cases htr : ctx.should_track_edges
    · have hst : (cov_evaluate ctx live).1.should_track_edges = false := htr
      show (if (cov_evaluate ctx live).1.should_track_edges = true then
          Function.update (cov_evaluate ctx live).1.edge_count i 0
        else (cov_evaluate ctx live).1.edge_count) i = ctx.edge_count i
      rw [if_neg (by rw [hst]; exact Bool.false_ne_true)]
      show (internal_evaluate live ctx.virgin_bits ctx.bitmap_size
        ctx.should_track_edges ctx.edge_count).2.2 i = ctx.edge_count i
      rw [he3 i, if_neg (by simp [htr])]
    · have hst : (cov_evaluate ctx live).1.should_track_edges = true := htr
      show (if (cov_evaluate ctx live).1.should_track_edges = true then
          Function.update (cov_evaluate ctx live).1.edge_count i 0
        else (cov_evaluate ctx live).1.edge_count) i = ctx.edge_count i
      rw [if_pos hst, Function.update_same, hcnt htr]

/-- Witness for the amended C9 at `covW` (tracking disabled) with
live bitmap `{3}`: evaluate reports exactly `[3]`. -/
theorem clear_edge_data_undoes_single_new_edge_witness :
    covW.bitmap_size % 8 = 0 ∧
    covW.found_edges < U32_MOD ∧
    (cov_evaluate covW liveSingleW).2.1 = [3] ∧
    (covW.should_track_edges = true → covW.edge_count 3 = 0) ∧
    ((cov_clear_edge_data (cov_evaluate covW liveSingleW).1 3).virgin_bits 3 =
      covW.virgin_bits 3 ∧
    (cov_clear_edge_data (cov_evaluate covW liveSingleW).1 3).found_edges =
      covW.found_edges ∧
    (cov_clear_edge_data (cov_evaluate covW liveSingleW).1 3).edge_count 3 =
      covW.edge_count 3) :=
  ⟨by decide, by decide, by decide, by decide,
   clear_edge_data_undoes_single_new_edge covW liveSingleW 3
     (by decide) (by decide) (by decide) (by decide)⟩

/-! ## Claim C6 -/

/-- C6: on an initialized context, a script longer than
`REPRL_MAX_DATA_SIZE` makes `reprl_execute` fail with the
ScriptTooLarge error, leaving the context unchanged apart from the
last-error string and performing no externally visible action: no
data-channel write, no control-pipe message, no child spawned or
terminated (the action trace is empty and the channels, pid and
initialized flag are those of the input context). -/
theorem reprl_execute_script_too_large (ctx : reprl_context)
    (script : Nat → Nat) (script_length timeout : Nat)
    (fresh_instance : Bool) (env : ExecEnv)
    (hinit : ctx.initialized = true)
    (hlen : script_length > REPRL_MAX_DATA_SIZE) :
    reprl_execute ctx script script_length timeout fresh_instance env =
      (.err "Script too large",
       { ctx with last_error := some "Script too large" }, []) := by
  unfold reprl_execute
  rw [if_neg (by simp [hinit]), if_pos hlen]
  rfl

/-- Witness for C6: a 17 MiB script is rejected without touching the
live child of `reprlW`. -/
theorem reprl_execute_script_too_large_witness :
    reprlW.initialized = true ∧
    17825792 > REPRL_MAX_DATA_SIZE ∧
    reprl_execute reprlW (fun _ => 0) 17825792 1000000 false envOkW =
      (.err "Script too large",
       { reprlW with last_error := some "Script too large" }, []) :=
  ⟨rfl, by decide,
   reprl_execute_script_too_large reprlW (fun _ => 0) 17825792 1000000
     false envOkW rfl (by decide)⟩

/-! ## Claim C5 -/

/-- C5: on an initialized context with a live child, when the script
fits, the control-pipe write succeeds and the poll times out,
`reprl_execute` kills the child, waits for it, returns exactly the
status `1 <<< 16` (for which `RIFTIMEDOUT` is true and `RIFSIGNALED`
and `RIFEXITED` are false), and afterwards records no live child, so
any following call with a working spawn environment spawns a fresh
child. -/
theorem reprl_execute_timeout (ctx : reprl_context) (script : Nat → Nat)
    (script_length timeout : Nat) (env : ExecEnv)
    (hinit : ctx.initialized = true)
    (hlen : script_length ≤ REPRL_MAX_DATA_SIZE)
    (hpid : ctx.pid ≠ 0)
    (hwrite : env.writeOk = true)
    (hpoll : env.poll = PollResult.timeout) :
    (reprl_execute ctx script script_length timeout false env).1 =
      .status (1 <<< 16) ∧
    RIFTIMEDOUT (1 <<< 16) = true ∧
    RIFSIGNALED (1 <<< 16) = false ∧
    RIFEXITED (1 <<< 16) = false ∧
    (reprl_execute ctx script script_length timeout false env).2.1.pid = 0 ∧
    REAction.killChild ctx.pid ∈
      (reprl_execute ctx script script_length timeout false env).2.2 ∧
    REAction.waitChild ctx.pid ∈
      (reprl_execute ctx script script_length timeout false env).2.2 ∧
    (∀ (script2 : Nat → Nat) (len2 to2 : Nat) (fresh2 : Bool)
      (env2 : ExecEnv), env2.spawnOk = true →
      len2 ≤ REPRL_MAX_DATA_SIZE →
      REAction.spawnChild env2.spawnPid ∈
        (reprl_execute
          (reprl_execute ctx script script_length timeout false env).2.1
          script2 len2 to2 fresh2 env2).2.2) := by
  have h2 : ¬(script_length > REPRL_MAX_DATA_SIZE) := Nat.not_lt.mpr hlen
  have h3 : ¬(ctx.pid = 0) := hpid
  refine ⟨?_, by decide, by decide, by decide, ?_, ?_, ?_, ?_⟩
  · simp [reprl_execute, reprl_execute_after_spawn, reprl_terminate_child,
      hinit, hwrite, hpoll, h2, h3]
  · simp [reprl_execute, reprl_execute_after_spawn, reprl_terminate_child,
      hinit, hwrite, hpoll, h2, h3]
  · simp [reprl_execute, reprl_execute_after_spawn, reprl_terminate_child,
      hinit, hwrite, hpoll, h2, h3]
  · simp [reprl_execute, reprl_execute_after_spawn, reprl_terminate_child,
      hinit, hwrite, hpoll, h2, h3]
  · intro script2 len2 to2 fresh2 env2 hsp hlen2
    have h2b : ¬(len2 > REPRL_MAX_DATA_SIZE) := Nat.not_lt.mpr hlen2
    simp [reprl_execute, reprl_execute_after_spawn, reprl_terminate_child,
      hinit, hwrite, hpoll, h2, h3, hsp, h2b]

/-- Witness for C5 at the concrete context `reprlW` (live child pid 7)
with a timing-out environment. -/
theorem reprl_execute_timeout_witness :
    reprlW.initialized = true ∧
    (0 : Nat) ≤ REPRL_MAX_DATA_SIZE ∧
    reprlW.pid ≠ 0 ∧
    envTimeoutW.writeOk = true ∧
    envTimeoutW.poll = PollResult.timeout ∧
    (reprl_execute reprlW (fun _ => 0) 0 100000 false envTimeoutW).1 =
      .status (1 <<< 16) ∧
    (reprl_execute reprlW (fun _ => 0) 0 100000 false
      envTimeoutW).2.1.pid = 0 ∧
    REAction.killChild reprlW.pid ∈
      (reprl_execute reprlW (fun _ => 0) 0 100000 false envTimeoutW).2.2 :=
  ⟨rfl, by decide, by decide, rfl, rfl,
   (reprl_execute_timeout reprlW (fun _ => 0) 0 100000 envTimeoutW
     rfl (by decide) (by decide) rfl rfl).1,
   (reprl_execute_timeout reprlW (fun _ => 0) 0 100000 envTimeoutW
     rfl (by decide) (by decide) rfl rfl).2.2.2.2.1,
   (reprl_execute_timeout reprlW (fun _ => 0) 0 100000 envTimeoutW
     rfl (by decide) (by decide) rfl rfl).2.2.2.2.2.1⟩

/-! ## Claim C10 -/

theorem cstr_len_le (f : Nat → Nat) (k : Nat)
    (hk : k < REPRL_MAX_DATA_SIZE) (h0 : f k = 0) : cstr_len f ≤ k := by
  by_contra hlt
  push_neg at hlt
  simp only [cstr_len] at hlt
  have hpre : (List.range REPRL_MAX_DATA_SIZE).takeWhile
      (fun i => f i != 0) <+: List.range REPRL_MAX_DATA_SIZE :=
    List.takeWhile_prefix _
  have heq := List.prefix_iff_eq_take.mp hpre
  have hmem : k ∈ (List.range REPRL_MAX_DATA_SIZE).takeWhile
      (fun i => f i != 0) := by
    rw [heq, List.take_range]
    exact List.mem_range.mpr (lt_min_iff.mpr ⟨hlt, hk⟩)
  have hk2 := List.mem_takeWhile_imp hmem
  rw [h0] at hk2
  simp at hk2

/-- Behaviour of `fetch_data_channel_content` on one channel: empty
content for a missing channel; for a present channel, a NUL byte at
offset `min(pos, REPRL_MAX_DATA_SIZE - 1)`, every other byte taken
unchanged from the mapping, and a C-string view of length at most
that offset; in every case the returned content is NUL-terminated
inside the 16 MiB window (it is never a null pointer). -/
theorem fetch_content_spec (ch : Option data_channel) :
    (ch = none → fetch_data_channel_content ch = fun _ => 0) ∧
    (∀ c, ch = some c →
      fetch_data_channel_content ch (min c.pos (REPRL_MAX_DATA_SIZE - 1)) =
        0 ∧
      (∀ i, i ≠ min c.pos (REPRL_MAX_DATA_SIZE - 1) →
        fetch_data_channel_content ch i = c.mapping i) ∧
      cstr_len (fetch_data_channel_content ch) ≤
        min c.pos (REPRL_MAX_DATA_SIZE - 1)) ∧
    (∃ k, k < REPRL_MAX_DATA_SIZE ∧ fetch_data_channel_content ch k = 0) := by
  have hminlt : ∀ p : Nat, min p (REPRL_MAX_DATA_SIZE - 1) <
      REPRL_MAX_DATA_SIZE := by
    intro p
    have := min_le_right p (REPRL_MAX_DATA_SIZE - 1)
    simp only [REPRL_MAX_DATA_SIZE] at this ⊢
    omega
  refine ⟨?_, ?_, ?_⟩
  · rintro rfl; rfl
  · rintro c rfl
    refine ⟨?_, ?_, ?_⟩
    · show Function.update c.mapping
        (min c.pos (REPRL_MAX_DATA_SIZE - 1)) 0
        (min c.pos (REPRL_MAX_DATA_SIZE - 1)) = 0
      exact Function.update_same _ _ _
    · intro i hi
      show Function.update c.mapping
        (min c.pos (REPRL_MAX_DATA_SIZE - 1)) 0 i = c.mapping i
      exact Function.update_noteq hi _ _
    · refine cstr_len_le _ _ (hminlt c.pos) ?_
      show Function.update c.mapping
        (min c.pos (REPRL_MAX_DATA_SIZE - 1)) 0
        (min c.pos (REPRL_MAX_DATA_SIZE - 1)) = 0
      exact Function.update_same _ _ _
  · cases ch with
    | none =>
      refine ⟨0, ?_, rfl⟩
      simp [REPRL_MAX_DATA_SIZE]
    | some c =>
      refine ⟨min c.pos (REPRL_MAX_DATA_SIZE - 1), hminlt c.pos, ?_⟩
      show Function.update c.mapping
        (min c.pos (REPRL_MAX_DATA_SIZE - 1)) 0
        (min c.pos (REPRL_MAX_DATA_SIZE - 1)) = 0
      exact Function.update_same _ _ _

/-- C10: `reprl_fetch_stdout` and `reprl_fetch_stderr` are total and
never return a null pointer: when the capture channel was not created
they return the empty string, and otherwise they return the channel
mapping NUL-terminated at `min(position, REPRL_MAX_DATA_SIZE - 1)`
with all other bytes unchanged; in every case the result is a
NUL-terminated string within the 16 MiB window. -/
theorem fetch_streams_total (ctx : reprl_context) :
    (ctx.child_stdout = none → reprl_fetch_stdout ctx = fun _ => 0) ∧
    (∀ c, ctx.child_stdout = some c →
      reprl_fetch_stdout ctx (min c.pos (REPRL_MAX_DATA_SIZE - 1)) = 0 ∧
      (∀ i, i ≠ min c.pos (REPRL_MAX_DATA_SIZE - 1) →
        reprl_fetch_stdout ctx i = c.mapping i) ∧
      cstr_len (reprl_fetch_stdout ctx) ≤
        min c.pos (REPRL_MAX_DATA_SIZE - 1)) ∧
    (∃ k, k < REPRL_MAX_DATA_SIZE ∧ reprl_fetch_stdout ctx k = 0) ∧
    (ctx.child_stderr = none → reprl_fetch_stderr ctx = fun _ => 0) ∧
    (∀ c, ctx.child_stderr = some c →
      reprl_fetch_stderr ctx (min c.pos (REPRL_MAX_DATA_SIZE - 1)) = 0 ∧
      (∀ i, i ≠ min c.pos (REPRL_MAX_DATA_SIZE - 1) →
        reprl_fetch_stderr ctx i = c.mapping i) ∧
      cstr_len (reprl_fetch_stderr ctx) ≤
        min c.pos (REPRL_MAX_DATA_SIZE - 1)) ∧
    (∃ k, k < REPRL_MAX_DATA_SIZE ∧ reprl_fetch_stderr ctx k = 0) := by
  obtain ⟨a1, a2, a3⟩ := fetch_content_spec ctx.child_stdout
  obtain ⟨b1, b2, b3⟩ := fetch_content_spec ctx.child_stderr
  exact ⟨a1, a2, a3, b1, b2, b3⟩

/-- Witness for C10 at the concrete context `reprlW` (stdout channel
present with position 5, stderr channel absent). -/
theorem fetch_streams_total_witness :
    (reprlW.child_stdout = none → reprl_fetch_stdout reprlW = fun _ => 0) ∧
    (∀ c, reprlW.child_stdout = some c →
      reprl_fetch_stdout reprlW (min c.pos (REPRL_MAX_DATA_SIZE - 1)) = 0 ∧
      (∀ i, i ≠ min c.pos (REPRL_MAX_DATA_SIZE - 1) →
        reprl_fetch_stdout reprlW i = c.mapping i) ∧
      cstr_len (reprl_fetch_stdout reprlW) ≤
        min c.pos (REPRL_MAX_DATA_SIZE - 1)) ∧
    (∃ k, k < REPRL_MAX_DATA_SIZE ∧ reprl_fetch_stdout reprlW k = 0) ∧
    (reprlW.child_stderr = none → reprl_fetch_stderr reprlW = fun _ => 0) ∧
    (∀ c, reprlW.child_stderr = some c →
      reprl_fetch_stderr reprlW (min c.pos (REPRL_MAX_DATA_SIZE - 1)) = 0 ∧
      (∀ i, i ≠ min c.pos (REPRL_MAX_DATA_SIZE - 1) →
        reprl_fetch_stderr reprlW i = c.mapping i) ∧
      cstr_len (reprl_fetch_stderr reprlW) ≤
        min c.pos (REPRL_MAX_DATA_SIZE - 1)) ∧
    (∃ k, k < REPRL_MAX_DATA_SIZE ∧ reprl_fetch_stderr reprlW k = 0) :=
  fetch_streams_total reprlW

end Fuzzilli
